import Mathlib

/-!
Verification of the RAG document-ingestion and retrieval core
(`rag/document_store.py`, `rag/rag_agent.py`, `rag/config.py`).

Conventions of the shallow embedding:
* floating-point scores and vector components are modelled as rationals;
* Python dicts used as chunk metadata are association lists whose lookup
  returns the first matching key, and `dict.update(m)` is modelled by
  prepending `m` (so keys of `m` win);
* the external capabilities (text extractors, the langchain text splitter,
  the embedding service, the chroma nearest-neighbour query) are injected
  as function parameters, following the dependency-injection reading of
  the design notes; fallible calls return `Except`;
* a raised Python exception is an `Except.error`, and operations that
  mutate the vector index return the post-call index state next to the
  `Except` result, so that an aborted call's state can be compared with
  the initial one.
-/

/-- Values storable in chunk metadata (chroma accepts primitives; strings
and integers are the ones this code base uses). -/
inductive MValue where
  | str (s : String)
  | int (n : Int)
deriving DecidableEq, Repr

/-- Chunk metadata: a Python dict modelled as an association list, first
match wins on lookup. -/
abbrev Metadata := List (String × MValue)

/-- Dict lookup: value of the first entry carrying the key. -/
def mlookup : Metadata → String → Option MValue
  | [], _ => none
  | (k', v) :: rest, k => if k' = k then some v else mlookup rest k

/-- Python `dict.update`: `pyUpdate base m` is `base` with every key of `m`
overriding; keys of `m` are prepended so they win on lookup. -/
def pyUpdate (base m : Metadata) : Metadata := m ++ base

/-- Errors raised by the core (Python exceptions, per §7 of the design). -/
inductive RAGError where
  | unsupportedFormat (ext : String)
  | decodeError
  | embeddingFailure
  | invalidConfig
  | missingModel
deriving DecidableEq, Repr

/-- An entry of the chroma collection: identifier, chunk text, embedding
vector and metadata, as passed to `collection.add`. -/
structure Entry where
  id : String
  document : String
  embedding : List ℚ
  metadata : Metadata
deriving DecidableEq, Repr

/-- A search hit as returned by `DocumentStore.search_documents`. -/
structure SearchResult where
  content : String
  metadata : Metadata
  score : ℚ
deriving DecidableEq, Repr

/-- An equality metadata filter, as passed in chroma `where` clauses. -/
abbrev WhereFilter := List (String × MValue)

/-! ### Python `pathlib` fragment used by `extract_text_from_file` -/

/-- Splits a character list at every occurrence of `c` (model of
`str.split`). -/
def splitOnChar (c : Char) : List Char → List (List Char)
  | [] => [[]]
  | a :: rest =>
    let r := splitOnChar c rest
    if a = c then [] :: r
    else
      match r with
      | [] => [[a]]
      | h :: t => (a :: h) :: t

/-- Model of `Path(p).name`: the last nonempty `/`-separated component. -/
def pyPathName (p : String) : String :=
  String.mk (((splitOnChar '/' p.data).filter (fun s => !s.isEmpty)).getLastD [])

/-- Index of the last `.` in a character list, if any. -/
def lastDotIndex (cs : List Char) : Option Nat :=
  ((cs.enum.filter (fun p => p.2 == '.')).map (fun p => p.1)).getLast?

/-- Model of `Path(p).suffix`: the substring of the name from its last dot,
empty when the name has no dot, starts with its only dot, or ends with it. -/
def pySuffix (file_path : String) : String :=
  let name := (pyPathName file_path).data
  match lastDotIndex name with
  | some i => if 0 < i ∧ i + 1 < name.length then String.mk (name.drop i) else ""
  | none => ""

/-- Model of `str.lower` (ASCII case folding, as `Char.toLower`). -/
def pyLower (s : String) : String := String.mk (s.data.map Char.toLower)

/-! ### `DocumentStore` -/

-- Configuration constants of `rag/config.py` (`RAGConfig`).
namespace RAGConfig

def CHUNK_SIZE : Nat := 1000

def CHUNK_OVERLAP : Nat := 200

def DEFAULT_SEARCH_RESULTS : Nat := 5

def SIMILARITY_THRESHOLD : ℚ := 7 / 10

def SUPPORTED_FILE_TYPES : List String := [".pdf", ".docx", ".doc", ".txt"]

end RAGConfig

/-- `DocumentStore.extract_text_from_file`: dispatches on the lowercased
file suffix to one of the three extractors, raising
`ValueError(f"Unsupported file format: ...")` otherwise. The extractors
are injected capabilities (`_extract_from_pdf` etc. wrap commodity
libraries). -/
def extract_text_from_file
    (extract_pdf extract_docx extract_txt : String → Except RAGError String)
    (file_path : String) : Except RAGError String :=
  let suf := pySuffix file_path
  if pyLower suf = ".pdf" then extract_pdf file_path
  else if pyLower suf = ".docx" ∨ pyLower suf = ".doc" then extract_docx file_path
  else if pyLower suf = ".txt" then extract_txt file_path
  else .error (.unsupportedFormat suf)

/-- The truncated preview stored under `chunk_text`:
`chunk[:100] + "..." if len(chunk) > 100 else chunk`. -/
def chunk_preview (chunk : String) : String :=
  if 100 < chunk.data.length then String.mk (chunk.data.take 100) ++ "..." else chunk

/-- `collection.add(documents, embeddings, metadatas, ids)`: appends to the
collection one entry per position of the four parallel lists. -/
def collection_add (store : List Entry) (documents : List String)
    (embeddings : List (List ℚ)) (metadatas : List Metadata)
    (ids : List String) : List Entry :=
  store ++ (ids.zip (documents.zip (embeddings.zip metadatas))).map
    (fun x => { id := x.1, document := x.2.1, embedding := x.2.2.1, metadata := x.2.2.2 })

/-- `DocumentStore.add_document`: extract, split, embed, then write every
chunk in one batched `collection.add`. `doc_id` stands for the generated
`str(uuid.uuid4())`. The result pairs the Python return value (or the
propagated exception) with the post-call collection state. -/
def add_document
    (extract_pdf extract_docx extract_txt : String → Except RAGError String)
    (split_text : String → List String)
    (embed_documents : List String → Except RAGError (List (List ℚ)))
    (doc_id : String) (store : List Entry)
    (file_path : String) (metadata : Option Metadata) :
    Except RAGError String × List Entry :=
  match extract_text_from_file extract_pdf extract_docx extract_txt file_path with
  | .error e => (.error e, store)
  | .ok text =>
    let chunks := split_text text
    match embed_documents chunks with
    | .error e => (.error e, store)
    | .ok embeddings =>
      let base_metadata : Metadata :=
        [("source", .str file_path), ("doc_id", .str doc_id),
         ("total_chunks", .int chunks.length)]
      let merged : Metadata :=
        match metadata with
        | some m => if m.isEmpty then base_metadata else pyUpdate base_metadata m
        | none => base_metadata
      let chunk_ids := (List.range chunks.length).map (fun i => doc_id ++ "_" ++ toString i)
      let metadatas := chunks.enum.map (fun p =>
        pyUpdate merged [("chunk_index", .int p.1), ("chunk_text", .str (chunk_preview p.2))])
      (.ok doc_id, collection_add store chunks embeddings metadatas chunk_ids)

/-- The raw answer of `collection.query` for one query embedding: parallel
lists of documents, metadatas and distances (the `[0]` rows). -/
structure QueryResult where
  documents : List String
  metadatas : List Metadata
  distances : List ℚ
deriving DecidableEq, Repr

/-- The list comprehension of `search_documents`: zips the three rows and
converts each distance to a score via `1 - distance`. -/
def searchResultsOf (r : QueryResult) : List SearchResult :=
  (r.documents.zip (r.metadatas.zip r.distances)).map
    (fun x => { content := x.1, metadata := x.2.1, score := 1 - x.2.2 })

/-- `DocumentStore.search_documents`: embeds the query, asks the collection
for nearest neighbours under the optional metadata filter, and maps the
raw result rows through the score transform. -/
def search_documents
    (embed_query : String → List ℚ)
    (collection_query : List ℚ → Nat → Option WhereFilter → QueryResult)
    (query : String) (n_results : Nat) (filter_dict : Option WhereFilter) :
    List SearchResult :=
  searchResultsOf (collection_query (embed_query query) n_results filter_dict)

/-- Whether an entry matches the chroma filter `where={"doc_id": v}`. -/
def matchesDocId (e : Entry) (v : String) : Bool :=
  mlookup e.metadata "doc_id" == some (.str v)

/-- `collection.get(where={"doc_id": doc_id})`: entries whose metadata
`doc_id` field equals the given value. -/
def collection_get_by_doc_id (store : List Entry) (v : String) : List Entry :=
  store.filter (fun e => matchesDocId e v)

/-- `collection.delete(ids=...)`: removes the entries carrying the listed
identifiers. -/
def collection_delete (store : List Entry) (ids : List String) : List Entry :=
  store.filter (fun e => !(ids.contains e.id))

/-- `DocumentStore.delete_document`: fetches the ids of the chunks whose
metadata `doc_id` equals the argument and deletes that batch; when the
fetched id list is empty the delete is skipped. Total: no error path. -/
def delete_document (store : List Entry) (doc_id : String) : List Entry :=
  let ids := (collection_get_by_doc_id store doc_id).map (fun e => e.id)
  if ids.isEmpty then store else collection_delete store ids

/-- Modelled from the spec: the chunker implementation (the langchain
`RecursiveCharacterTextSplitter` constructed in `DocumentStore.__init__`)
is not part of the repository sources; §4.2 requires the degenerate
configuration `overlap >= max_size` to be rejected with `InvalidConfig`
rather than accepted or looping. -/
def validate_split_config (max_size overlap : Nat) : Except RAGError Unit :=
  if max_size ≤ overlap then .error .invalidConfig else .ok ()

/-! ### `RAGAgent` -/

/-- Python `"%.3f"`-style rendering helper: round half to even at the
third decimal (the decimal-level model of float formatting). -/
def roundHalfToEven (q : ℚ) : Int :=
  let f : Int := ⌊q⌋
  let r : ℚ := q - f
  if r < 1 / 2 then f
  else if 1 / 2 < r then f + 1
  else if f % 2 = 0 then f else f + 1

/-- Zero-pads a fractional part to three digits. -/
def pad3 (n : Nat) : String :=
  if n < 10 then "00" ++ toString n
  else if n < 100 then "0" ++ toString n
  else toString n

/-- Model of the f-string conversion `f"{score:.3f}"`. -/
def format3 (q : ℚ) : String :=
  let m := roundHalfToEven (q * 1000)
  let sign := if m < 0 then "-" else ""
  let a := m.natAbs
  sign ++ toString (a / 1000) ++ "." ++ pad3 (a % 1000)

/-- Model of Python `sep.join(parts)`. -/
def pyJoin (sep : String) : List String → String
  | [] => ""
  | [a] => a
  | a :: b :: rest => a ++ sep ++ pyJoin sep (b :: rest)

/-- Rendering of a metadata value inside an f-string (`str(v)`). -/
def pyStr : MValue → String
  | .str s => s
  | .int n => toString n

/-- The `result['metadata'].get('source', 'Unknown')` access. -/
def sourceOrUnknown (md : Metadata) : String :=
  match mlookup md "source" with
  | some v => pyStr v
  | none => "Unknown"

/-- The `--- Document i (Score: s) ---` header rendered for the 1-based
result number `num` (without its leading newline). -/
def documentHeader (num : Nat) (r : SearchResult) : String :=
  "--- Document " ++ toString num ++ " (Score: " ++ format3 r.score ++ ") ---"

/-- The `context_parts` list built by the loop of
`build_context_from_search` over nonempty search results. -/
def contextParts (results : List SearchResult) : List String :=
  "Retrieved Knowledge Base Information:" ::
    results.enum.flatMap (fun p =>
      ["\n" ++ documentHeader (p.1 + 1) p.2,
       "Source: " ++ sourceOrUnknown p.2.metadata,
       "Content: " ++ p.2.content])

/-- The sentinel returned on an empty result set. -/
def noDocsSentinel : String := "No relevant documents found in the knowledge base."

/-- Modelled from the spec: the mutable agent surface. `role`,
`basic_prompt`, `context`, `enhanced_prompt` and `llm` live on the
`BaseAgent` framework class, which is outside the repository sources; the
spec describes them as the stored default prompt, the pre-existing
conversational context (empty when absent), the optional previously set
enhanced prompt (empty when absent) and the optionally configured
language model. `retrieved_docs` is the cache set by
`search_knowledge_base`. -/
structure RAGAgentState where
  role : String
  basic_prompt : String
  context : String
  enhanced_prompt : String
  llm : Option (String → String)
  retrieved_docs : List SearchResult

/-- The search capability the agent delegates to: the bound method
`document_store.search_documents` (query, n_results, filter). -/
abbrev SearchFun := String → Nat → Option WhereFilter → List SearchResult

/-- A recorded invocation of `document_store.search_documents`, used to
state which retrieval calls an agent operation performs. -/
structure SearchCall where
  query : String
  n_results : Nat
  filter_dict : Option WhereFilter
deriving DecidableEq

/-- `RAGAgent.search_knowledge_base`: delegates to the document store,
caches the result set on the agent, and returns it; the third component
records the performed store invocation. -/
def search_knowledge_base (search : SearchFun) (s : RAGAgentState)
    (query : String) (n_results : Nat) (filter_dict : Option WhereFilter) :
    (List SearchResult × RAGAgentState) × List SearchCall :=
  let docs := search query n_results filter_dict
  ((docs, { s with retrieved_docs := docs }), [⟨query, n_results, filter_dict⟩])

/-- `RAGAgent.build_context_from_search`: searches (with the default
`filter_dict=None`), returns the sentinel on an empty result set and the
newline-joined rendered block otherwise. -/
def build_context_from_search (search : SearchFun) (s : RAGAgentState)
    (query : String) (n_results : Nat) :
    (String × RAGAgentState) × List SearchCall :=
  let r := search_knowledge_base search s query n_results none
  let search_results := r.1.1
  if search_results.isEmpty then ((noDocsSentinel, r.1.2), r.2)
  else ((pyJoin "\n" (contextParts search_results), r.1.2), r.2)

/-- The four-slot prompt template of `get_output_with_rag`, filled. -/
def fillPromptTemplate (role enhanced_context base_prompt : String) : String :=
  "You are an expert in " ++ role ++ ".\n\n" ++
  "CONTEXT AND KNOWLEDGE BASE:\n" ++ enhanced_context ++ "\n\n" ++
  "TASK:\n" ++ base_prompt ++ "\n\n" ++
  "Use the provided context and knowledge base information to give a comprehensive and accurate response. " ++
  "If the knowledge base contains relevant information, incorporate it into your response. " ++
  "If the knowledge base doesn\x27t contain relevant information, rely on your general knowledge but mention this limitation."

/-- `RAGAgent.get_output_with_rag`: raises `ValueError("LLM is not set.")`
when no language model is configured, otherwise searches with the user
query (or the basic prompt when the query is absent or empty), renders the
retrieved context, fills the template and invokes the model. The result
carries the post-call agent state and the recorded store invocations. -/
def get_output_with_rag (search : SearchFun) (s : RAGAgentState)
    (user_query : Option String) (search_filter : Option WhereFilter) :
    (Except RAGError String × RAGAgentState) × List SearchCall :=
  match s.llm with
  | none => ((.error .missingModel, s), [])
  | some llm =>
    let search_query :=
      match user_query with
      | some q => if q = "" then s.basic_prompt else q
      | none => s.basic_prompt
    let r := build_context_from_search search s search_query 5
    let rag_context := r.1.1
    let enhanced_context :=
      if s.context = "" then rag_context else s.context ++ "\n\n" ++ rag_context
    let base_prompt :=
      if s.enhanced_prompt = "" then s.basic_prompt else s.enhanced_prompt
    ((.ok (llm (fillPromptTemplate s.role enhanced_context base_prompt)), r.1.2), r.2)

/-! ### Helper notions and lemmas -/

/-- Substring test on character lists: some drop of `big` starts with
`small`. -/
def containsSub (big small : List Char) : Bool :=
  (List.range (big.length + 1)).any (fun i => small.isPrefixOf (big.drop i))

/-- Substring test on strings (model of Python `t in s`). -/
def strContains (s t : String) : Bool := containsSub s.data t.data

lemma containsSub_append (pre mid suf : List Char) :
    containsSub (pre ++ (mid ++ suf)) mid = true := by
  unfold containsSub
  rw [List.any_eq_true]
  refine ⟨pre.length, ?_, ?_⟩
  · rw [List.mem_range, List.length_append, List.length_append]
    omega
  · rw [List.drop_left, List.isPrefixOf_iff_prefix]
    exact List.prefix_append mid suf

lemma mlookup_append (a b : Metadata) (k : String) :
    mlookup (a ++ b) k =
      (match mlookup a k with | some v => some v | none => mlookup b k) := by
  induction a with
  | nil => simp [mlookup]
  | cons p a ih =>
    by_cases h : p.1 = k
    · simp [mlookup, h]
    · simpa [mlookup, h] using ih

lemma pyJoin_decomp (sep : String) :
    ∀ (parts : List String) (p : String), p ∈ parts →
      ∃ pre suf, pyJoin sep parts = pre ++ p ++ suf := by
  intro parts
  induction parts with
  | nil => intro p hp; cases hp
  | cons a rest ih =>
    intro p hp
    cases rest with
    | nil =>
      have hpa : p = a := by simpa using hp
      subst hpa
      exact ⟨"", "", by apply String.ext; simp [pyJoin, String.data_append]⟩
    | cons b t =>
      rcases List.mem_cons.mp hp with h | h
      · subst h
        exact ⟨"", sep ++ pyJoin sep (b :: t),
          by apply String.ext; simp [pyJoin, String.data_append]⟩
      · obtain ⟨pre, suf, hd⟩ := ih p h
        refine ⟨a ++ sep ++ pre, suf, ?_⟩
        apply String.ext
        have hdd := congrArg String.data hd
        simp only [pyJoin, String.data_append] at hdd ⊢
        simp [hdd, List.append_assoc]

lemma strContains_pyJoin_part (sep : String) {parts : List String}
    (q t r p : String) (hp : p ∈ parts)
    (he : p.data = q.data ++ (t.data ++ r.data)) :
    strContains (pyJoin sep parts) t = true := by
  obtain ⟨pre, suf, hd⟩ := pyJoin_decomp sep parts p hp
  unfold strContains
  have hbig : (pyJoin sep parts).data =
      (pre.data ++ q.data) ++ (t.data ++ (r.data ++ suf.data)) := by
    have hdd := congrArg String.data hd
    simp only [String.data_append] at hdd
    rw [hdd, he]
    simp [List.append_assoc]
  rw [hbig]
  exact containsSub_append _ _ _

lemma toDigitsCore_append (b : Nat) :
    ∀ (fuel n : Nat) (acc : List Char),
      Nat.toDigitsCore b fuel n acc = Nat.toDigitsCore b fuel n [] ++ acc := by
  intro fuel
  induction fuel with
  | zero => intro n acc; simp [Nat.toDigitsCore]
  | succ f ih =>
    intro n acc
    simp only [Nat.toDigitsCore]
    by_cases h : n / b = 0
    · simp [h]
    · simp only [h, if_false]
      rw [ih (n / b) ((n % b).digitChar :: acc), ih (n / b) [(n % b).digitChar]]
      simp

lemma toDigitsCore_fuel_irrel (b : Nat) (hb : 1 < b) :
    ∀ (fuel fuel' n : Nat) (acc : List Char), n < fuel → n < fuel' →
      Nat.toDigitsCore b fuel n acc = Nat.toDigitsCore b fuel' n acc := by
  intro fuel
  induction fuel with
  | zero => intro fuel' n acc h; omega
  | succ f ih =>
    intro fuel' n acc h h'
    cases fuel' with
    | zero => omega
    | succ f' =>
      simp only [Nat.toDigitsCore]
      by_cases hz : n / b = 0
      · simp [hz]
      · simp only [hz, if_false]
        have hnpos : 0 < n := by
          rcases Nat.eq_zero_or_pos n with h0 | h0
          · exact absurd (by simp [h0]) hz
          · exact h0
        have hdiv : n / b < n := Nat.div_lt_self hnpos hb
        exact ih f' (n / b) _ (by omega) (by omega)

/-- Decimal digit characters of a natural number, as printed by
`Nat.repr`. -/
def natDigits (n : Nat) : List Char := Nat.toDigits 10 n

lemma natDigits_eq (n : Nat) :
    natDigits n =
      (if n / 10 = 0 then [] else natDigits (n / 10)) ++ [Nat.digitChar (n % 10)] := by
  unfold natDigits Nat.toDigits
  by_cases h : n / 10 = 0
  · simp only [Nat.toDigitsCore, h, if_true]
    simp
  · simp only [Nat.toDigitsCore, h, if_false]
    rw [toDigitsCore_append 10 n (n / 10) [(n % 10).digitChar]]
    have hnpos : 0 < n := by
      rcases Nat.eq_zero_or_pos n with h0 | h0
      · exact absurd (by simp [h0]) h
      · exact h0
    have hdiv : n / 10 < n := Nat.div_lt_self hnpos (by norm_num)
    rw [toDigitsCore_fuel_irrel 10 (by norm_num) n (n / 10 + 1) (n / 10) []
      (by omega) (by omega)]
    congr 1

/-- Decimal value of a most-significant-first digit character list. -/
def digitsVal (cs : List Char) : Nat :=
  cs.foldl (fun a c => a * 10 + (c.toNat - 48)) 0

lemma digitChar_toNat {m : Nat} (h : m < 10) : (Nat.digitChar m).toNat = 48 + m := by
  interval_cases m <;> rfl

lemma digitsVal_natDigits (n : Nat) : digitsVal (natDigits n) = n := by
  induction n using Nat.strong_induction_on with
  | _ n ih =>
    rw [natDigits_eq]
    have h10 : n % 10 < 10 := Nat.mod_lt _ (by norm_num)
    by_cases h : n / 10 = 0
    · have hlt : n < 10 := by
        rcases Nat.lt_or_ge n 10 with hl | hl
        · exact hl
        · exact absurd h (by have := Nat.div_le_div_right (c := 10) hl; omega)
      simp only [h, if_true, List.nil_append]
      simp [digitsVal, digitChar_toNat h10]
      omega
    · have hnpos : 0 < n := by
        rcases Nat.eq_zero_or_pos n with h0 | h0
        · exact absurd (by simp [h0]) h
        · exact h0
      have hdiv : n / 10 < n := Nat.div_lt_self hnpos (by norm_num)
      simp only [h, if_false]
      have hfold : digitsVal (natDigits (n / 10) ++ [Nat.digitChar (n % 10)]) =
          digitsVal (natDigits (n / 10)) * 10 + ((Nat.digitChar (n % 10)).toNat - 48) := by
        simp [digitsVal, List.foldl_append]
      rw [hfold, ih (n / 10) hdiv, digitChar_toNat h10]
      omega

lemma natToString_inj {m n : Nat} (h : toString m = toString n) : m = n := by
  have hd : natDigits m = natDigits n := by
    have : (toString m).data = (toString n).data := congrArg String.data h
    simpa [toString, Nat.repr, List.asString, natDigits] using this
  rw [← digitsVal_natDigits m, ← digitsVal_natDigits n, hd]

lemma chunkId_inj (doc_id : String) {i j : Nat}
    (h : doc_id ++ "_" ++ toString i = doc_id ++ "_" ++ toString j) : i = j := by
  apply natToString_inj
  apply String.ext
  have hd := congrArg String.data h
  simp only [String.data_append, List.append_assoc] at hd
  exact List.append_cancel_left (List.append_cancel_left hd)

lemma build_context_from_search_calls (search : SearchFun) (s : RAGAgentState)
    (q : String) (n : Nat) :
    (build_context_from_search search s q n).2 = [⟨q, n, none⟩] := by
  unfold build_context_from_search search_knowledge_base
  by_cases h : (search q n none).isEmpty <;> simp [h]

/-! ### Claim theorems -/

/-- C5: a chunker configuration with `overlap >= max_size` is rejected with
`InvalidConfig` (never accepted); the repository's configured values
(`CHUNK_SIZE = 1000`, `CHUNK_OVERLAP = 200`) are accepted. -/
theorem chunk_config_rejected_when_overlap_ge_size :
    (∀ max_size overlap : Nat, max_size ≤ overlap →
        validate_split_config max_size overlap = .error .invalidConfig)
    ∧ validate_split_config RAGConfig.CHUNK_SIZE RAGConfig.CHUNK_OVERLAP = .ok () := by
  constructor
  · intro ms ov h
    simp [validate_split_config, h]
  · simp [validate_split_config, RAGConfig.CHUNK_SIZE, RAGConfig.CHUNK_OVERLAP]

/-- Witness for the C5 theorem at `max_size = 5`, `overlap = 7`. -/
theorem chunk_config_rejected_when_overlap_ge_size_wit :
    validate_split_config 5 7 = .error .invalidConfig :=
  chunk_config_rejected_when_overlap_ge_size.1 5 7 (by decide)

/-- C6: an extension (compared case-insensitively) outside the supported
set makes `extract_text_from_file` — and therefore `add_document` — fail
with the unsupported-format error naming the extension; a supported
extension dispatches to the matching extractor. -/
theorem extract_dispatches_on_extension :
    (∀ (ep ed et : String → Except RAGError String) (path : String),
        pyLower (pySuffix path) ∉ RAGConfig.SUPPORTED_FILE_TYPES →
          extract_text_from_file ep ed et path =
            .error (.unsupportedFormat (pySuffix path))
          ∧ ∀ split embed doc_id store meta,
              add_document ep ed et split embed doc_id store path meta =
                (.error (.unsupportedFormat (pySuffix path)), store))
    ∧ (∀ ep ed et path, pyLower (pySuffix path) = ".pdf" →
        extract_text_from_file ep ed et path = ep path)
    ∧ (∀ ep ed et path,
        pyLower (pySuffix path) = ".docx" ∨ pyLower (pySuffix path) = ".doc" →
          extract_text_from_file ep ed et path = ed path)
    ∧ (∀ ep ed et path, pyLower (pySuffix path) = ".txt" →
        extract_text_from_file ep ed et path = et path) := by
  refine ⟨?_, ?_, ?_, ?_⟩
  · intro ep ed et path h
    simp only [RAGConfig.SUPPORTED_FILE_TYPES, List.mem_cons, List.mem_singleton,
      not_or] at h
    obtain ⟨h1, h2, h3, h4⟩ := h
    have hx : extract_text_from_file ep ed et path =
        .error (.unsupportedFormat (pySuffix path)) := by
      unfold extract_text_from_file
      simp [h1, h2, h3, h4]
    refine ⟨hx, ?_⟩
    intro split embed doc_id store meta
    unfold add_document
    rw [hx]
  · intro ep ed et path h
    unfold extract_text_from_file
    simp [h]
  · intro ep ed et path h
    unfold extract_text_from_file
    rcases h with h | h <;> simp [h]
  · intro ep ed et path h
    unfold extract_text_from_file
    simp [h]

/-- Witness for the C6 theorem: `report.xml` is rejected naming `.xml`,
and `notes.TXT` reaches the plain-text extractor. -/
theorem extract_dispatches_on_extension_wit :
    (extract_text_from_file (fun _ => .ok "P") (fun _ => .ok "D") (fun _ => .ok "T")
        "report.xml" = .error (.unsupportedFormat (pySuffix "report.xml"))
      ∧ ∀ split embed doc_id store meta,
          add_document (fun _ => .ok "P") (fun _ => .ok "D") (fun _ => .ok "T")
            split embed doc_id store "report.xml" meta =
            (.error (.unsupportedFormat (pySuffix "report.xml")), store))
    ∧ extract_text_from_file (fun _ => .ok "P") (fun _ => .ok "D") (fun _ => .ok "T")
        "notes.TXT" = (fun _ => Except.ok "T") "notes.TXT" :=
  ⟨extract_dispatches_on_extension.1 (fun _ => .ok "P") (fun _ => .ok "D")
      (fun _ => .ok "T") "report.xml" (by decide),
   extract_dispatches_on_extension.2.2.2 (fun _ => .ok "P") (fun _ => .ok "D")
      (fun _ => .ok "T") "notes.TXT" (by decide)⟩

/-- C2: when the batched embedding call raises, `add_document` propagates
the error and the collection state is exactly the pre-call state: no chunk
of the document is written. -/
theorem add_document_atomic_on_embedding_failure :
    ∀ (ep ed et : String → Except RAGError String)
      (split : String → List String)
      (embed : List String → Except RAGError (List (List ℚ)))
      (doc_id : String) (store : List Entry) (path : String)
      (meta : Option Metadata) (text : String) (err : RAGError),
      extract_text_from_file ep ed et path = .ok text →
      embed (split text) = .error err →
      add_document ep ed et split embed doc_id store path meta = (.error err, store) := by
  intro ep ed et split embed doc_id store path meta text err hex hemb
  unfold add_document
  rw [hex]
  simp only [hemb]

/-- Witness for the C2 theorem: a failing embedder on a one-chunk text
document leaves an empty collection empty. -/
theorem add_document_atomic_on_embedding_failure_wit :
    add_document (fun _ => .ok "P") (fun _ => .ok "D") (fun _ => .ok "T")
      (fun t => [t]) (fun _ => .error .embeddingFailure) "d" [] "a.txt" none =
      (.error .embeddingFailure, []) :=
  add_document_atomic_on_embedding_failure (fun _ => .ok "P") (fun _ => .ok "D")
    (fun _ => .ok "T") (fun t => [t]) (fun _ => .error .embeddingFailure)
    "d" [] "a.txt" none "T" .embeddingFailure rfl rfl

/-- C8: with no language model configured, `get_output_with_rag` fails
with the missing-model error, performs no document-store (hence no
embedding) call, and leaves the agent state — including the cached
`retrieved_docs` — unchanged. -/
theorem get_output_with_rag_requires_llm :
    ∀ (search : SearchFun) (s : RAGAgentState) (user_query : Option String)
      (search_filter : Option WhereFilter),
      s.llm = none →
        get_output_with_rag search s user_query search_filter =
          ((.error .missingModel, s), []) := by
  intro search s uq f h
  unfold get_output_with_rag
  rw [h]

/-- Witness for the C8 theorem at a concrete model-less agent. -/
theorem get_output_with_rag_requires_llm_wit :
    get_output_with_rag (fun _ _ _ => []) ⟨"r", "bp", "", "", none, []⟩ none none =
      ((.error .missingModel, ⟨"r", "bp", "", "", none, []⟩), []) :=
  get_output_with_rag_requires_llm (fun _ _ _ => []) ⟨"r", "bp", "", "", none, []⟩
    none none rfl

/-- C9: `get_output_with_rag` never uses its `search_filter` argument: two
calls differing only in the filter agree exactly (same retrieval, same
state, same prompt and output), and every store invocation it performs
passes `filter_dict = None`. -/
theorem get_output_with_rag_ignores_search_filter :
    ∀ (search : SearchFun) (s : RAGAgentState) (user_query : Option String)
      (f₁ f₂ : Option WhereFilter),
      get_output_with_rag search s user_query f₁ =
        get_output_with_rag search s user_query f₂
      ∧ ∀ c ∈ (get_output_with_rag search s user_query f₁).2,
          c.filter_dict = none := by
  intro search s uq f₁ f₂
  refine ⟨rfl, ?_⟩
  unfold get_output_with_rag
  cases h : s.llm with
  | none => simp
  | some llm =>
    simp only [build_context_from_search_calls]
    intro c hc
    simp only [List.mem_singleton] at hc
    subst hc
    rfl

/-- Witness for the C9 theorem at a concrete agent with a configured
model, whose single performed search call carries `None` as filter. -/
theorem get_output_with_rag_ignores_search_filter_wit :
    get_output_with_rag (fun _ _ _ => []) ⟨"r", "bp", "", "", some (fun _ => "out"), []⟩
        none (some [("doc_id", .str "a")]) =
      get_output_with_rag (fun _ _ _ => []) ⟨"r", "bp", "", "", some (fun _ => "out"), []⟩
        none none
    ∧ ∀ c ∈ (get_output_with_rag (fun _ _ _ => [])
        ⟨"r", "bp", "", "", some (fun _ => "out"), []⟩ none
        (some [("doc_id", .str "a")])).2, c.filter_dict = none :=
  get_output_with_rag_ignores_search_filter (fun _ _ _ => [])
    ⟨"r", "bp", "", "", some (fun _ => "out"), []⟩ none
    (some [("doc_id", .str "a")]) none

/-- C4: `delete_document` removes exactly the entries whose metadata
`doc_id` equals the argument (identifier uniqueness across the collection
assumed, as chroma enforces): the result is the filter keeping
non-matching entries, afterwards no entry matches, and when nothing
matches the call is a no-op (and it has no error path). -/
theorem delete_document_removes_exactly_matching :
    ∀ (store : List Entry) (doc_id : String),
      (store.map Entry.id).Nodup →
        delete_document store doc_id =
          store.filter (fun e => !(matchesDocId e doc_id))
        ∧ (∀ e ∈ delete_document store doc_id, matchesDocId e doc_id = false)
        ∧ ((∀ e ∈ store, matchesDocId e doc_id = false) →
            delete_document store doc_id = store) := by
  intro store doc_id hnd
  have hmain : delete_document store doc_id =
      store.filter (fun e => !(matchesDocId e doc_id)) := by
    unfold delete_document
    by_cases hids : ((collection_get_by_doc_id store doc_id).map (fun e => e.id)).isEmpty
    · rw [if_pos hids]
      have hget : collection_get_by_doc_id store doc_id = [] := by
        have := List.isEmpty_iff.mp hids
        exact List.map_eq_nil_iff.mp this
      have hall : ∀ e ∈ store, matchesDocId e doc_id = false := by
        intro e he
        have := List.filter_eq_nil_iff.mp hget e he
        simpa using this
      symm
      rw [List.filter_eq_self]
      intro e he
      simp [hall e he]
    · rw [if_neg hids]
      unfold collection_delete
      apply List.filter_congr
      intro e he
      have hinj := List.inj_on_of_nodup_map hnd
      by_cases hm : matchesDocId e doc_id
      · have hmem : e.id ∈ (collection_get_by_doc_id store doc_id).map (fun e => e.id) :=
          List.mem_map.mpr ⟨e, List.mem_filter.mpr ⟨he, hm⟩, rfl⟩
        simp [hm, hmem]
      · have hnmem : e.id ∉ (collection_get_by_doc_id store doc_id).map (fun e => e.id) := by
          intro hmem
          obtain ⟨e', he', hid⟩ := List.mem_map.mp hmem
          have he's := List.mem_filter.mp he'
          have : e' = e := hinj he's.1 he hid
          subst this
          exact absurd he's.2 (by simpa using hm)
        simp only [Bool.not_eq_true] at hm
        simp [hm, hnmem]
  refine ⟨hmain, ?_, ?_⟩
  · intro e he
    rw [hmain] at he
    have := (List.mem_filter.mp he).2
    simpa using this
  · intro hall
    rw [hmain, List.filter_eq_self]
    intro e he
    simp [hall e he]

/-- Witness for the C4 theorem: deleting document `a` from a two-document
collection removes exactly its entry, and deleting an absent id is a
no-op. -/
theorem delete_document_removes_exactly_matching_wit :
    delete_document
        [⟨"x", "c1", [], [("doc_id", .str "a")]⟩, ⟨"y", "c2", [], [("doc_id", .str "b")]⟩]
        "a" =
      List.filter (fun e => !(matchesDocId e "a"))
        [⟨"x", "c1", [], [("doc_id", .str "a")]⟩, ⟨"y", "c2", [], [("doc_id", .str "b")]⟩] :=
  (delete_document_removes_exactly_matching
    [⟨"x", "c1", [], [("doc_id", .str "a")]⟩, ⟨"y", "c2", [], [("doc_id", .str "b")]⟩]
    "a" (by decide)).1

lemma searchResultsOf_length_le (r : QueryResult) (n : Nat)
    (h : r.documents.length ≤ n) : (searchResultsOf r).length ≤ n := by
  unfold searchResultsOf
  rw [List.length_map, List.length_zip]
  exact le_trans (Nat.min_le_left _ _) h

lemma searchResultsOf_scores (r : QueryResult)
    (h1 : r.documents.length = r.metadatas.length)
    (h2 : r.metadatas.length = r.distances.length) :
    (searchResultsOf r).map SearchResult.score = r.distances.map (fun d => 1 - d) := by
  apply List.ext_getElem
  · simp [searchResultsOf]
    omega
  · intro i hi1 hi2
    simp [searchResultsOf, List.getElem_zip]

lemma searchResultsOf_sorted (r : QueryResult)
    (h1 : r.documents.length = r.metadatas.length)
    (h2 : r.metadatas.length = r.distances.length)
    (hc : List.Chain' (· ≤ ·) r.distances) :
    List.Chain' (fun a b : SearchResult => b.score ≤ a.score) (searchResultsOf r) := by
  have hmap := searchResultsOf_scores r h1 h2
  have hchain : List.Chain' (fun x y : ℚ => y ≤ x)
      ((searchResultsOf r).map SearchResult.score) := by
    rw [hmap, List.chain'_map]
    exact hc.imp (fun a b hab => sub_le_sub_left hab 1)
  rw [List.chain'_map] at hchain
  exact hchain

lemma searchResultsOf_score_range (r : QueryResult)
    (hd : ∀ d ∈ r.distances, 0 ≤ d ∧ d ≤ 2) :
    ∀ sr ∈ searchResultsOf r, -1 ≤ sr.score ∧ sr.score ≤ 1 := by
  intro sr hsr
  unfold searchResultsOf at hsr
  obtain ⟨x, hx, rfl⟩ := List.mem_map.mp hsr
  rcases x with ⟨a, b, c⟩
  have hbc := (List.of_mem_zip hx).2
  have hc := (List.of_mem_zip hbc).2
  obtain ⟨h0, h2⟩ := hd c hc
  constructor
  · simp only
    linarith
  · simp only
    linarith

/-- C1: `search_documents` maps each distance `d` returned by the index to
the score `1 - d`, keeps the index order and count (at most `n_results`
rows, ranked by ascending distance, hence descending score), and under the
cosine-distance domain `[0, 2]` the scores lie in `[-1, 1]` but can be
negative. The length, ranking and domain facts about the raw
`collection.query` rows are the index contract of §4.4. -/
theorem search_documents_scores_and_order :
    (∀ (embed_query : String → List ℚ)
       (collection_query : List ℚ → Nat → Option WhereFilter → QueryResult)
       (query : String) (n_results : Nat) (filter_dict : Option WhereFilter),
       let r := collection_query (embed_query query) n_results filter_dict
       let out := search_documents embed_query collection_query query n_results filter_dict
       (r.documents.length ≤ n_results → out.length ≤ n_results)
       ∧ (r.documents.length = r.metadatas.length →
          r.metadatas.length = r.distances.length →
            out.map SearchResult.score = r.distances.map (fun d => 1 - d)
            ∧ (List.Chain' (· ≤ ·) r.distances →
                List.Chain' (fun a b : SearchResult => b.score ≤ a.score) out))
       ∧ ((∀ d ∈ r.distances, 0 ≤ d ∧ d ≤ 2) →
            ∀ sr ∈ out, -1 ≤ sr.score ∧ sr.score ≤ 1))
    ∧ (∃ (embed_query : String → List ℚ)
         (collection_query : List ℚ → Nat → Option WhereFilter → QueryResult)
         (query : String),
         (∀ d ∈ (collection_query (embed_query query) 5 none).distances,
            0 ≤ d ∧ d ≤ 2)
         ∧ ∃ sr ∈ search_documents embed_query collection_query query 5 none,
             sr.score < 0) := by
  constructor
  · intro embed_query collection_query query n_results filter_dict
    refine ⟨?_, ?_, ?_⟩
    · intro h
      exact searchResultsOf_length_le _ _ h
    · intro h1 h2
      exact ⟨searchResultsOf_scores _ h1 h2,
        fun hc => searchResultsOf_sorted _ h1 h2 hc⟩
    · intro hd
      exact searchResultsOf_score_range _ hd
  · refine ⟨fun _ => [], fun _ _ _ => ⟨["a"], [[]], [(2 : ℚ)]⟩, "q", ?_, ?_⟩
    · intro d hd
      have : d = 2 := by simpa using hd
      subst this
      norm_num
    · refine ⟨⟨"a", [], 1 - 2⟩, ?_, by norm_num⟩
      simp [search_documents, searchResultsOf]

/-- Witness for the C1 theorem at a one-row index answer with distance 2:
at most one result, score `1 - 2`, within `[-1, 1]`. -/
theorem search_documents_scores_and_order_wit :
    (search_documents (fun _ => []) (fun _ _ _ => ⟨["a"], [[]], [(2 : ℚ)]⟩)
        "q" 1 none).length ≤ 1
    ∧ (search_documents (fun _ => []) (fun _ _ _ => ⟨["a"], [[]], [(2 : ℚ)]⟩)
        "q" 1 none).map SearchResult.score = [(2 : ℚ)].map (fun d => 1 - d)
    ∧ ∀ sr ∈ search_documents (fun _ => []) (fun _ _ _ => ⟨["a"], [[]], [(2 : ℚ)]⟩)
        "q" 1 none, -1 ≤ sr.score ∧ sr.score ≤ 1 := by
  have h := (search_documents_scores_and_order.1 (fun _ => [])
    (fun _ _ _ => ⟨["a"], [[]], [(2 : ℚ)]⟩) "q" 1 none)
  refine ⟨h.1 (by decide), (h.2.1 rfl rfl).1, h.2.2 ?_⟩
  intro d hd
  have hd2 : d = 2 := by simpa using hd
  subst hd2
  constructor <;> norm_num

/-- C7: on an empty result set `build_context_from_search` returns the
fixed sentinel (a nonempty string, no exception — the operation is total);
on a nonempty one it returns the newline-join of the rendered parts, which
contains for every result `i` (numbered from 1) its document header with
the 3-decimal score, its `Source:` line with `Unknown` substituted for a
missing source field, and its `Content:` line. -/
theorem build_context_from_search_rendering :
    ∀ (search : SearchFun) (s : RAGAgentState) (query : String) (n : Nat),
      let results := search query n none
      let out := (build_context_from_search search s query n).1.1
      (results = [] → out = noDocsSentinel ∧ out ≠ "")
      ∧ (results ≠ [] →
          out = pyJoin "\n" (contextParts results)
          ∧ ∀ i (hi : i < results.length),
              strContains out (documentHeader (i + 1) (results.get ⟨i, hi⟩)) = true
              ∧ strContains out
                  ("Source: " ++ sourceOrUnknown (results.get ⟨i, hi⟩).metadata) = true
              ∧ strContains out ("Content: " ++ (results.get ⟨i, hi⟩).content) = true) := by
  intro search s query n
  constructor
  · intro h
    have hout : (build_context_from_search search s query n).1.1 = noDocsSentinel := by
      unfold build_context_from_search search_knowledge_base
      simp [h]
    exact ⟨hout, by rw [hout]; decide⟩
  · intro h
    have hout : (build_context_from_search search s query n).1.1 =
        pyJoin "\n" (contextParts (search query n none)) := by
      unfold build_context_from_search search_knowledge_base
      simp [List.isEmpty_iff, h]
    refine ⟨hout, ?_⟩
    intro i hi
    have hmem : (i, (search query n none).get ⟨i, hi⟩) ∈ (search query n none).enum := by
      have hlen : i < (search query n none).enum.length := by
        simpa [List.enum_length] using hi
      have hm := List.getElem_mem hlen
      rwa [List.getElem_enum] at hm
    have hblock : ∀ part ∈
        ["\n" ++ documentHeader (i + 1) ((search query n none).get ⟨i, hi⟩),
         "Source: " ++ sourceOrUnknown ((search query n none).get ⟨i, hi⟩).metadata,
         "Content: " ++ ((search query n none).get ⟨i, hi⟩).content],
        part ∈ contextParts (search query n none) := by
      intro part hp
      unfold contextParts
      apply List.mem_cons_of_mem
      exact List.mem_flatMap.mpr ⟨(i, (search query n none).get ⟨i, hi⟩), hmem,
        by simpa using hp⟩
    refine ⟨?_, ?_, ?_⟩
    · rw [hout]
      exact strContains_pyJoin_part "\n" "\n"
        (documentHeader (i + 1) ((search query n none).get ⟨i, hi⟩)) ""
        ("\n" ++ documentHeader (i + 1) ((search query n none).get ⟨i, hi⟩))
        (hblock _ (by simp)) (by simp [String.data_append])
    · rw [hout]
      exact strContains_pyJoin_part "\n" ""
        ("Source: " ++ sourceOrUnknown ((search query n none).get ⟨i, hi⟩).metadata) ""
        ("Source: " ++ sourceOrUnknown ((search query n none).get ⟨i, hi⟩).metadata)
        (hblock _ (by simp)) (by simp [String.data_append])
    · rw [hout]
      exact strContains_pyJoin_part "\n" ""
        ("Content: " ++ ((search query n none).get ⟨i, hi⟩).content) ""
        ("Content: " ++ ((search query n none).get ⟨i, hi⟩).content)
        (hblock _ (by simp)) (by simp [String.data_append])

/-- Witness for the C7 theorem: the sentinel on an empty search, and the
rendered header contained in the output for a one-result search. -/
theorem build_context_from_search_rendering_wit :
    (build_context_from_search (fun _ _ _ => ([] : List SearchResult))
        ⟨"r", "bp", "", "", none, []⟩ "q" 5).1.1 = noDocsSentinel
    ∧ strContains
        (build_context_from_search
          (fun _ _ _ => [⟨"c", [("source", .str "f.txt")], 0⟩])
          ⟨"r", "bp", "", "", none, []⟩ "q" 5).1.1
        (documentHeader (0 + 1)
          (([⟨"c", [("source", .str "f.txt")], 0⟩] : List SearchResult).get
            ⟨0, by decide⟩)) = true := by
  have h1 := (build_context_from_search_rendering
    (fun _ _ _ => ([] : List SearchResult)) ⟨"r", "bp", "", "", none, []⟩ "q" 5).1 rfl
  have h2 := ((build_context_from_search_rendering
    (fun _ _ _ => [⟨"c", [("source", .str "f.txt")], 0⟩])
    ⟨"r", "bp", "", "", none, []⟩ "q" 5).2 (by simp)).2 0 (by decide)
  exact ⟨h1.1, h2.1⟩

/-- The `base_metadata` dict of `add_document` for a document with `k`
chunks. -/
def addBaseMetadata (doc_id path : String) (k : Nat) : Metadata :=
  [("source", .str path), ("doc_id", .str doc_id), ("total_chunks", .int k)]

/-- The `base_metadata` dict after the (truthiness-guarded) merge of the
caller metadata. -/
def addMergedMetadata (doc_id path : String) (k : Nat) (meta : Option Metadata) :
    Metadata :=
  match meta with
  | some m => if m.isEmpty then addBaseMetadata doc_id path k
              else pyUpdate (addBaseMetadata doc_id path k) m
  | none => addBaseMetadata doc_id path k

/-- The metadata stored with chunk number `i` (content `c`) of a document
with `k` chunks. -/
def chunkMetadata (doc_id path : String) (k : Nat) (meta : Option Metadata)
    (i : Nat) (c : String) : Metadata :=
  pyUpdate (addMergedMetadata doc_id path k meta)
    [("chunk_index", .int i), ("chunk_text", .str (chunk_preview c))]

/-- The entries a successful `add_document` appends to the collection. -/
def addedEntries (doc_id path : String) (meta : Option Metadata)
    (chunks : List String) (vecs : List (List ℚ)) : List Entry :=
  (((List.range chunks.length).map (fun i => doc_id ++ "_" ++ toString i)).zip
    (chunks.zip (vecs.zip (chunks.enum.map (fun p =>
      chunkMetadata doc_id path chunks.length meta p.1 p.2))))).map
    (fun x => { id := x.1, document := x.2.1, embedding := x.2.2.1, metadata := x.2.2.2 })

lemma add_document_ok_eq
    (ep ed et : String → Except RAGError String)
    (split : String → List String)
    (embed : List String → Except RAGError (List (List ℚ)))
    (doc_id : String) (store : List Entry) (path : String)
    (meta : Option Metadata) (text : String) (vecs : List (List ℚ))
    (hex : extract_text_from_file ep ed et path = .ok text)
    (hemb : embed (split text) = .ok vecs) :
    add_document ep ed et split embed doc_id store path meta =
      (.ok doc_id, store ++ addedEntries doc_id path meta (split text) vecs) := by
  unfold add_document collection_add
  rw [hex]
  simp only [hemb]
  unfold addedEntries chunkMetadata addMergedMetadata addBaseMetadata
  rfl

lemma addedEntries_length (doc_id path : String) (meta : Option Metadata)
    (chunks : List String) (vecs : List (List ℚ))
    (hv : vecs.length = chunks.length) :
    (addedEntries doc_id path meta chunks vecs).length = chunks.length := by
  unfold addedEntries
  simp [List.length_zip, List.enum_length, hv]

lemma addedEntries_get (doc_id path : String) (meta : Option Metadata)
    (chunks : List String) (vecs : List (List ℚ))
    (hv : vecs.length = chunks.length) (i : Nat)
    (hi : i < (addedEntries doc_id path meta chunks vecs).length) :
    (addedEntries doc_id path meta chunks vecs).get ⟨i, hi⟩ =
      { id := doc_id ++ "_" ++ toString i,
        document := chunks.get ⟨i, by
          rw [addedEntries_length doc_id path meta chunks vecs hv] at hi; exact hi⟩,
        embedding := vecs.get ⟨i, by
          rw [addedEntries_length doc_id path meta chunks vecs hv, ← hv] at hi; exact hi⟩,
        metadata := chunkMetadata doc_id path chunks.length meta i
          (chunks.get ⟨i, by
            rw [addedEntries_length doc_id path meta chunks vecs hv] at hi; exact hi⟩) } := by
  have hic : i < chunks.length := by
    rw [addedEntries_length doc_id path meta chunks vecs hv] at hi
    exact hi
  simp [addedEntries, List.getElem_map, List.getElem_zip, List.getElem_range,
    List.getElem_enum]

lemma chunkMetadata_lookup_chunk_index (doc_id path : String) (k : Nat)
    (meta : Option Metadata) (i : Nat) (c : String) :
    mlookup (chunkMetadata doc_id path k meta i c) "chunk_index" = some (.int i) := by
  simp [chunkMetadata, pyUpdate, mlookup]

lemma chunkMetadata_lookup_total_chunks (doc_id path : String) (k : Nat)
    (meta : Option Metadata) (i : Nat) (c : String)
    (hmeta : match meta with
             | some m => mlookup m "total_chunks" = none
             | none => True) :
    mlookup (chunkMetadata doc_id path k meta i c) "total_chunks" = some (.int k) := by
  unfold chunkMetadata pyUpdate
  rw [mlookup_append]
  have h1 : mlookup [("chunk_index", MValue.int i),
      ("chunk_text", MValue.str (chunk_preview c))] "total_chunks" = none := by
    simp [mlookup]
  rw [h1]
  cases meta with
  | none => simp [addMergedMetadata, addBaseMetadata, mlookup]
  | some m =>
    by_cases hm : m.isEmpty
    · simp [addMergedMetadata, hm, addBaseMetadata, mlookup]
    · simp only [addMergedMetadata, pyUpdate]
      rw [if_neg hm, mlookup_append]
      rw [show mlookup m "total_chunks" = none from hmeta]
      simp [addBaseMetadata, mlookup]

lemma chunkMetadata_lookup_caller (doc_id path : String) (k : Nat)
    (m : Metadata) (hm : ¬ m.isEmpty) (i : Nat) (c : String)
    (key : String) (v : MValue)
    (hk1 : key ≠ "chunk_index") (hk2 : key ≠ "chunk_text")
    (hv : mlookup m key = some v) :
    mlookup (chunkMetadata doc_id path k (some m) i c) key = some v := by
  unfold chunkMetadata pyUpdate
  rw [mlookup_append]
  have h1 : mlookup [("chunk_index", MValue.int i),
      ("chunk_text", MValue.str (chunk_preview c))] key = none := by
    simp [mlookup, Ne.symm hk1, Ne.symm hk2]
  rw [h1]
  simp only [addMergedMetadata, pyUpdate]
  rw [if_neg hm, mlookup_append, hv]

/-- C3 (amended): for a successful `add_document` producing `k` chunks,
the chunk appended at zero-based position `i` has identifier
`doc_id ++ "_" ++ i`, its metadata records `chunk_index = i`, and the
appended chunk identifiers are pairwise distinct (order-stable by
construction); provided additionally that the caller metadata does not
itself carry a `total_chunks` key, every chunk's metadata records
`total_chunks = k`. Without that proviso the `total_chunks` part fails
(see the counterexample): the caller merge happens after the generated
base metadata. -/
theorem add_document_chunk_identity :
    ∀ (ep ed et : String → Except RAGError String)
      (split : String → List String)
      (embed : List String → Except RAGError (List (List ℚ)))
      (doc_id : String) (store : List Entry) (path : String)
      (meta : Option Metadata) (text : String) (vecs : List (List ℚ)),
      extract_text_from_file ep ed et path = .ok text →
      embed (split text) = .ok vecs →
      vecs.length = (split text).length →
      let result := add_document ep ed et split embed doc_id store path meta
      let added := result.2.drop store.length
      let k := (split text).length
      result.1 = .ok doc_id
      ∧ added.length = k
      ∧ (∀ i (hi : i < added.length),
          (added.get ⟨i, hi⟩).id = doc_id ++ "_" ++ toString i
          ∧ mlookup (added.get ⟨i, hi⟩).metadata "chunk_index" = some (.int i))
      ∧ ((match meta with
          | some m => mlookup m "total_chunks" = none
          | none => True) →
          ∀ i (hi : i < added.length),
            mlookup (added.get ⟨i, hi⟩).metadata "total_chunks" = some (.int k))
      ∧ (added.map Entry.id).Nodup := by
  intro ep ed et split embed doc_id store path meta text vecs hex hemb hv
  have heq := add_document_ok_eq ep ed et split embed doc_id store path meta text vecs
    hex hemb
  have hadded : (add_document ep ed et split embed doc_id store path meta).2.drop
      store.length = addedEntries doc_id path meta (split text) vecs := by
    rw [heq, List.drop_left]
  have hres1 : (add_document ep ed et split embed doc_id store path meta).1 =
      .ok doc_id := by
    rw [heq]
  refine ⟨hres1, ?_, ?_, ?_, ?_⟩
  · rw [hadded]
    exact addedEntries_length doc_id path meta (split text) vecs hv
  · intro i hi
    have hget := List.get_of_eq hadded ⟨i, hi⟩
    rw [hget]
    rw [addedEntries_get doc_id path meta (split text) vecs hv i _]
    exact ⟨rfl, chunkMetadata_lookup_chunk_index doc_id path (split text).length meta i _⟩
  · intro hmeta i hi
    have hget := List.get_of_eq hadded ⟨i, hi⟩
    rw [hget]
    rw [addedEntries_get doc_id path meta (split text) vecs hv i _]
    exact chunkMetadata_lookup_total_chunks doc_id path (split text).length meta i _ hmeta
  · rw [hadded]
    have hids : (addedEntries doc_id path meta (split text) vecs).map Entry.id =
        (List.range (split text).length).map (fun i => doc_id ++ "_" ++ toString i) := by
      apply List.ext_getElem
      · simp [addedEntries_length doc_id path meta (split text) vecs hv]
      · intro i hi1 hi2
        have hi' : i < (addedEntries doc_id path meta (split text) vecs).length := by
          simpa using hi1
        rw [List.getElem_map]
        have hg := addedEntries_get doc_id path meta (split text) vecs hv i hi'
        rw [List.get_eq_getElem] at hg
        rw [hg]
        simp [List.getElem_range]
    rw [hids]
    apply List.Nodup.map
    · intro a b hab
      exact chunkId_inj doc_id hab
    · exact List.nodup_range _

/-- Counterexample to C3 as stated: a caller metadata mapping that itself
carries `total_chunks` overrides the generated count in every stored
chunk. The one-chunk document ends with `total_chunks = 999`, not 1. -/
theorem add_document_chunk_identity_cex :
    (add_document (fun _ => .ok "P") (fun _ => .ok "D") (fun _ => .ok "T")
        (fun t => [t]) (fun cs => .ok (cs.map (fun _ => [])))
        "d" [] "a.txt" (some [("total_chunks", .int 999)])).1 = .ok "d"
    ∧ (add_document (fun _ => .ok "P") (fun _ => .ok "D") (fun _ => .ok "T")
        (fun t => [t]) (fun cs => .ok (cs.map (fun _ => [])))
        "d" [] "a.txt" (some [("total_chunks", .int 999)])).2.length = 1
    ∧ mlookup ((add_document (fun _ => .ok "P") (fun _ => .ok "D") (fun _ => .ok "T")
        (fun t => [t]) (fun cs => .ok (cs.map (fun _ => [])))
        "d" [] "a.txt" (some [("total_chunks", .int 999)])).2.headD
          ⟨"", "", [], []⟩).metadata "total_chunks" = some (.int 999)
    ∧ some (MValue.int 999) ≠ some (MValue.int 1) :=
  ⟨rfl, by decide, by decide, by decide⟩

/-- Witness for the C3 theorem: a concrete two-chunk ingestion without a
caller `total_chunks` key; chunk 1 gets id `d_1`, `chunk_index = 1` and
`total_chunks = 2`. -/
theorem add_document_chunk_identity_wit :
    let result := add_document (fun _ => .ok "P") (fun _ => .ok "D") (fun _ => .ok "T")
      (fun _ => ["u", "v"]) (fun cs => .ok (cs.map (fun _ => [])))
      "d" [] "a.txt" (some [("source", .str "caller")])
    let added := result.2.drop (List.length ([] : List Entry))
    result.1 = .ok "d"
    ∧ added.length = 2
    ∧ ∀ hi : 1 < added.length,
        (added.get ⟨1, hi⟩).id = "d" ++ "_" ++ toString 1
        ∧ mlookup (added.get ⟨1, hi⟩).metadata "chunk_index" = some (.int 1)
        ∧ mlookup (added.get ⟨1, hi⟩).metadata "total_chunks" = some (.int 2) := by
  have h := add_document_chunk_identity (fun _ => .ok "P") (fun _ => .ok "D")
    (fun _ => .ok "T") (fun _ => ["u", "v"]) (fun cs => .ok (cs.map (fun _ => [])))
    "d" [] "a.txt" (some [("source", .str "caller")]) "T" [[], []]
    rfl rfl rfl
  exact ⟨h.1, h.2.1, fun hi =>
    ⟨(h.2.2.1 1 hi).1, (h.2.2.1 1 hi).2, h.2.2.2.1 (by decide) 1 hi⟩⟩

/-- C10 (amended): caller metadata is merged after the generated base
metadata, so every key of a (truthy) caller mapping — including the
reserved `doc_id`, `source` and `total_chunks` — overrides the generated
value in every stored chunk, except the two per-chunk keys `chunk_index`
and `chunk_text`, which the loop writes after the merge (see the
counterexample for `chunk_index`). -/
theorem add_document_caller_metadata_wins :
    ∀ (ep ed et : String → Except RAGError String)
      (split : String → List String)
      (embed : List String → Except RAGError (List (List ℚ)))
      (doc_id : String) (store : List Entry) (path : String)
      (m : Metadata) (text : String) (vecs : List (List ℚ)),
      extract_text_from_file ep ed et path = .ok text →
      embed (split text) = .ok vecs →
      m ≠ [] →
      ∀ (key : String) (v : MValue),
        mlookup m key = some v → key ≠ "chunk_index" → key ≠ "chunk_text" →
        ∀ e ∈ (add_document ep ed et split embed doc_id store path (some m)).2.drop
            store.length,
          mlookup e.metadata key = some v := by
  intro ep ed et split embed doc_id store path m text vecs hex hemb hmne key v hv hk1 hk2
    e he
  have heq := add_document_ok_eq ep ed et split embed doc_id store path (some m)
    text vecs hex hemb
  have hadded : (add_document ep ed et split embed doc_id store path (some m)).2.drop
      store.length = addedEntries doc_id path (some m) (split text) vecs := by
    rw [heq, List.drop_left]
  rw [hadded] at he
  unfold addedEntries at he
  obtain ⟨x, hx, rfl⟩ := List.mem_map.mp he
  rcases x with ⟨a, b, c, d⟩
  have h1 := (List.of_mem_zip hx).2
  have h2 := (List.of_mem_zip h1).2
  have h3 := (List.of_mem_zip h2).2
  obtain ⟨p, hp, hd⟩ := List.mem_map.mp h3
  have hm : ¬ m.isEmpty := by
    simpa [List.isEmpty_iff] using hmne
  simp only
  rw [← hd]
  exact chunkMetadata_lookup_caller doc_id path (split text).length m hm p.1 p.2
    key v hk1 hk2 hv

/-- Counterexample to C10 as stated: a caller-supplied `chunk_index` key
does not survive — the per-chunk update overwrites it after the merge, so
the stored chunk carries `chunk_index = 0`, not the caller's 42. -/
theorem add_document_caller_metadata_wins_cex :
    mlookup ((add_document (fun _ => .ok "P") (fun _ => .ok "D") (fun _ => .ok "T")
        (fun t => [t]) (fun cs => .ok (cs.map (fun _ => []))) "x" [] "b.txt"
        (some [("chunk_index", .int 42)])).2.headD ⟨"", "", [], []⟩).metadata
      "chunk_index" = some (.int 0)
    ∧ some (MValue.int 0) ≠ some (MValue.int 42) :=
  ⟨by decide, by decide⟩

/-- Witness for the C10 theorem: a caller `doc_id` key replaces the
generated document identity in the stored chunk metadata. -/
theorem add_document_caller_metadata_wins_wit :
    mlookup (((add_document (fun _ => .ok "P") (fun _ => .ok "D") (fun _ => .ok "T")
        (fun t => [t]) (fun cs => .ok (cs.map (fun _ => []))) "x" [] "c.txt"
        (some [("doc_id", .str "o")])).2.drop
          (List.length ([] : List Entry))).headD ⟨"", "", [], []⟩).metadata
      "doc_id" = some (.str "o") := by
  have h := add_document_caller_metadata_wins (fun _ => .ok "P") (fun _ => .ok "D")
    (fun _ => .ok "T") (fun t => [t]) (fun cs => .ok (cs.map (fun _ => [])))
    "x" [] "c.txt" [("doc_id", .str "o")] "T" [[]] rfl rfl (by decide)
    "doc_id" (.str "o") (by decide) (by decide) (by decide)
  exact h _ (by decide)
